import Mathlib

/-!
Shallow embedding of the scroll-interaction core of the carousel-module
repository, together with proofs about its specified properties.

Conventions of the embedding:
* Scroll positions, widths and gaps are JavaScript numbers used as finite
  reals; they are modelled as rationals (`ℚ`).
* Slide counts are modelled as `ℕ`, slide indices as `ℤ`.
* A JavaScript arithmetic step that can produce a non-finite value (NaN or
  an infinity) on the inputs a function is actually called with is modelled
  with `Option`: `none` stands for the non-finite outcome.  This happens in
  exactly two places: division by a zero `slideWidth`/`slidesPerView`, and
  the remainder operator with divisor `0` (`x % 0` is NaN in JavaScript).
* `Math.round` rounds half toward positive infinity; `%` on numbers is the
  remainder of truncating division, so it keeps the sign of the dividend.
  Both are modelled explicitly below (`jsRound`, `jsRem`).
-/

/-- JavaScript `Math.round`: round half toward positive infinity. -/
def jsRound (x : ℚ) : ℤ := ⌊x + 1 / 2⌋

/-- JavaScript `%` on numbers: the remainder of truncating division, which
keeps the sign of the dividend.  `none` models the NaN that JavaScript
produces when the divisor is `0`. -/
def jsRem (a n : ℤ) : Option ℤ :=
  if n = 0 then none else some (Int.tmod a n)

/-- `calculateSlideWidth` from `src/carousel/utils/scrollUtils.ts`:
`(containerWidth - gap * (slidesPerView - 1)) / slidesPerView`.
`none` models the non-finite value of the division when
`slidesPerView = 0`; for every other argument the source returns the
plain quotient, with no error signalling of any kind. -/
def calculateSlideWidth (containerWidth gap slidesPerView : ℚ) : Option ℚ :=
  if slidesPerView = 0 then none
  else
    let totalGap := gap * (slidesPerView - 1)
    some ((containerWidth - totalGap) / slidesPerView)

/-- `getSelectedIndex` from `src/carousel/utils/scrollUtils.ts`.
`slideWidth` is, at every call site, the per-slide pitch (slide width plus
gap).  The rounded raw index is `Math.round(scrollPosition / slideWidth)`;
when looping the source returns `(index - cloneCount + originalCount) %
originalCount` with the JavaScript remainder, otherwise
`Math.min(index, slidesLength - 1)`.  `none` models the NaN produced when
`slideWidth = 0` (non-finite quotient) or, in the looping branch, when
`originalCount = 0` (remainder by zero). -/
def getSelectedIndex (scrollPosition slideWidth : ℚ) (cloneCount originalCount : ℕ)
    (loop : Bool) (slidesLength : ℕ) : Option ℤ :=
  if slideWidth = 0 then none
  else
    let index := jsRound (scrollPosition / slideWidth)
    if loop then
      jsRem (index - cloneCount + originalCount) originalCount
    else
      some (min index ((slidesLength : ℤ) - 1))

/-- `calculateTargetScroll` from `src/carousel/utils/scrollUtils.ts`:
`(cloneCount + index) * slideWidth` when looping, else
`index * slideWidth`. -/
def calculateTargetScroll (index : ℤ) (slideWidth : ℚ) (cloneCount : ℕ)
    (loop : Bool) : ℚ :=
  if loop then ((cloneCount : ℚ) + (index : ℚ)) * slideWidth
  else (index : ℚ) * slideWidth

/-- The `ScrollParams` record of `src/carousel/InfiniteScroll.ts`. -/
structure ScrollParams where
  slideWidth : ℚ
  gap : ℚ
  originalCount : ℕ
  cloneCount : ℕ

namespace InfiniteScroll

/-- `InfiniteScroll.handleInfiniteScroll` from
`src/carousel/InfiniteScroll.ts`, as the pure position-remapping function:
reading the current scroll position and writing the corrected one is made
explicit as `ℚ → ℚ`.  The early `return` when the handler is disabled or
`originalCount === 0` leaves the position unchanged. -/
def handleInfiniteScroll (enabled : Bool) (p : ScrollParams)
    (currentScroll : ℚ) : ℚ :=
  if enabled = false ∨ p.originalCount = 0 then currentScroll
  else
    let step : ℚ := p.slideWidth + p.gap
    let totalSlides : ℕ := p.originalCount + p.cloneCount * 2
    let totalWidth : ℚ := (totalSlides : ℚ) * step
    let cloneWidth : ℚ := (p.cloneCount : ℚ) * step
    if currentScroll < cloneWidth - step then
      currentScroll + (p.originalCount : ℚ) * step
    else if totalWidth - cloneWidth + step < currentScroll then
      currentScroll - (p.originalCount : ℚ) * step
    else
      currentScroll

end InfiniteScroll

/-- The `CarouselEventType` union of `src/carousel/Carousel.ts`. -/
inductive CarouselEventType
  | select
  | scroll
deriving DecidableEq

/-- The `CarouselEvent` record of `src/carousel/Carousel.ts`. -/
structure CarouselEvent where
  type : CarouselEventType
  index : ℤ
deriving DecidableEq

namespace DragHandler

/-- `DragHandlerConfig` from `DragHandler.ts`. -/
structure Config where
  enabled : Bool
  deceleration : ℚ
  minVelocity : ℚ

/-- `DEFAULT_CONFIG` from `DragHandler.ts`. -/
def defaultConfig : Config :=
  { enabled := true, deceleration := 92 / 100, minVelocity := 1 / 2 }

/-- The `DragState` record of `DragHandler.ts` (the animation-frame handle
used only for cancellation is not part of the value-level state). -/
structure DragState where
  isDragging : Bool
  startX : ℚ
  scrollStart : ℚ
  lastX : ℚ
  lastTime : ℚ
  velocity : ℚ
deriving DecidableEq

/-- The observable side effects a drag-handler step performs, in order:
writing the scroll position, invoking the loop callback (the infinite
scroll remap), invoking the scroll callback with an index, and starting
the momentum animation with the current velocity. -/
inductive Effect
  | setScroll (position : ℚ)
  | loopRemap
  | emitScrollCallback (index : ℤ)
  | startMomentum (velocity : ℚ)
deriving DecidableEq

/-- `DragHandler.handleDragStart`: ignoring the disabled case, it resets
the state for a fresh drag anchored at `x` with the current scroll
position and timestamp (it also cancels any running momentum). -/
def handleDragStart (cfg : Config) (x now scrollPosition : ℚ)
    (st : DragState) : DragState :=
  if cfg.enabled = false then st
  else
    { isDragging := true
      startX := x
      scrollStart := scrollPosition
      lastX := x
      lastTime := now
      velocity := 0 }

/-- `DragHandler.handleDragMove`: when dragging, recompute the velocity
from the elapsed time (`(lastX - x) / timeDelta * 16` when
`timeDelta > 0`), update the sample, move the scroll position to
`scrollStart + (startX - x)`, run the loop callback, and report the
freshly resolved index (`currentIndex` stands for the value the
`getSelectedIndex` callback returns at that point). -/
def handleDragMove (now x : ℚ) (currentIndex : ℤ) (st : DragState) :
    DragState × List Effect :=
  if st.isDragging = false then (st, [])
  else
    let timeDelta := now - st.lastTime
    let velocity :=
      if 0 < timeDelta then (st.lastX - x) / timeDelta * 16 else st.velocity
    let diff := st.startX - x
    let newScrollLeft := st.scrollStart + diff
    ({ st with velocity := velocity, lastX := x, lastTime := now },
      [Effect.setScroll newScrollLeft, Effect.loopRemap,
        Effect.emitScrollCallback currentIndex])

/-- `DragHandler.handleDragEnd`: when dragging, stop dragging; if
`|velocity| > minVelocity` start the momentum animation (which consumes
the recorded velocity), otherwise invoke the scroll callback with the
current resolved index; in both cases finish with the loop callback. -/
def handleDragEnd (cfg : Config) (currentIndex : ℤ) (st : DragState) :
    DragState × List Effect :=
  if st.isDragging = false then (st, [])
  else
    let st := { st with isDragging := false }
    if cfg.minVelocity < |st.velocity| then
      (st, [Effect.startMomentum st.velocity, Effect.loopRemap])
    else
      (st, [Effect.emitScrollCallback currentIndex, Effect.loopRemap])

/-- The velocity after `n` ticks of `DragHandler.startMomentum`: each
animation tick performs `velocity *= deceleration` before testing
`|velocity| < minVelocity`. -/
def momentumVelocity (v0 deceleration : ℚ) : ℕ → ℚ
  | 0 => v0
  | n + 1 => momentumVelocity v0 deceleration n * deceleration

end DragHandler

namespace Carousel

/-- The scroll callback the `Carousel` constructor passes to its
`DragHandler` (`Carousel.ts`, `setupEventListeners`): it emits a
`'scroll'` event with the given index. -/
def scrollCallbackEvent (index : ℤ) : CarouselEvent :=
  { type := CarouselEventType.scroll, index := index }

/-- The carousel events a single drag-handler effect produces once the
`Carousel` wiring is applied: only the scroll callback emits an event,
and it is a `'scroll'` event. -/
def effectEvents : DragHandler.Effect → List CarouselEvent
  | DragHandler.Effect.emitScrollCallback i => [scrollCallbackEvent i]
  | _ => []

/-- All carousel events produced by a list of drag-handler effects. -/
def dragEffectsEvents (effects : List DragHandler.Effect) : List CarouselEvent :=
  (effects.map effectEvents).flatten

end Carousel

/-- The part of the track state `Carousel.scrollTo` can write: the scroll
position and the scroll-behavior style flag. -/
structure TrackState where
  scrollLeft : ℚ
  smoothBehavior : Bool
deriving DecidableEq

namespace Carousel

/-- `Carousel.scrollTo` from `Carousel.ts`: an index outside
`[0, slides.length)` returns before touching anything; otherwise the pitch
is `calculateSlideWidth() + gap` (passed here as `slideWidthRaw` and
`gap`), the scroll-behavior flag is set from `smooth` and the position is
set to the target scroll of the index. -/
def scrollTo (slidesLength : ℕ) (slideWidthRaw gap : ℚ) (cloneCount : ℕ)
    (loop : Bool) (index : ℤ) (smooth : Bool) (track : TrackState) :
    TrackState :=
  if index < 0 ∨ (slidesLength : ℤ) ≤ index then track
  else
    let slideWidth := slideWidthRaw + gap
    { smoothBehavior := smooth
      scrollLeft := calculateTargetScroll index slideWidth cloneCount loop }

end Carousel

/-! ### Basic facts about the JavaScript arithmetic primitives -/

theorem jsRound_intCast (n : ℤ) : jsRound ((n : ℚ)) = n := by
  unfold jsRound
  rw [add_comm, Int.floor_add_int]
  norm_num [Int.floor_eq_iff]

theorem jsRound_add_intCast (x : ℚ) (n : ℤ) :
    jsRound (x + (n : ℚ)) = jsRound x + n := by
  unfold jsRound
  rw [add_right_comm, Int.floor_add_int]

theorem jsRound_eq {x : ℚ} {z : ℤ} (h1 : (z : ℚ) ≤ x + 1 / 2)
    (h2 : x + 1 / 2 < z + 1) : jsRound x = z := by
  unfold jsRound
  exact Int.floor_eq_iff.mpr ⟨h1, h2⟩

theorem jsRound_nonneg {x : ℚ} (h : -(1 / 2) ≤ x) : 0 ≤ jsRound x := by
  unfold jsRound
  exact Int.le_floor.mpr (by push_cast; linarith)

theorem le_jsRound {z : ℤ} {x : ℚ} (h : (z : ℚ) - 1 / 2 ≤ x) :
    z ≤ jsRound x := by
  unfold jsRound
  exact Int.le_floor.mpr (by linarith)

theorem tmod_shift {a : ℤ} {o : ℕ} (ha : 0 ≤ a) :
    Int.tmod (a + (o : ℤ)) (o : ℤ) = Int.tmod a (o : ℤ) := by
  rw [Int.tmod_eq_emod (by omega) (by omega), Int.tmod_eq_emod ha (by omega)]
  have : a + (o : ℤ) = a + (o : ℤ) * 1 := by ring
  rw [this, Int.add_mul_emod_self_left]

theorem tmod_sub_shift {a : ℤ} {o : ℕ} (ha : (o : ℤ) ≤ a) :
    Int.tmod (a - (o : ℤ)) (o : ℤ) = Int.tmod a (o : ℤ) := by
  rw [Int.tmod_eq_emod (by omega) (by omega),
    Int.tmod_eq_emod (by omega) (by omega)]
  conv_rhs => rw [show a = (a - (o : ℤ)) + (o : ℤ) * 1 from by ring]
  rw [Int.add_mul_emod_self_left]

/-! ### Unfolding lemmas for the embedded functions -/

theorem getSelectedIndex_loop {pos s : ℚ} {o : ℕ} (c : ℕ) (len : ℕ)
    (hs : s ≠ 0) (ho : o ≠ 0) :
    getSelectedIndex pos s c o true len
      = some (Int.tmod (jsRound (pos / s) - (c : ℤ) + (o : ℤ)) (o : ℤ)) := by
  simp [getSelectedIndex, jsRem, hs, ho]

theorem getSelectedIndex_noloop {pos s : ℚ} (c o : ℕ) {len : ℕ} (hs : s ≠ 0) :
    getSelectedIndex pos s c o false len
      = some (min (jsRound (pos / s)) ((len : ℤ) - 1)) := by
  simp [getSelectedIndex, hs]

theorem handleInfiniteScroll_mk (sw g : ℚ) (o c : ℕ) (ho : o ≠ 0) (q : ℚ) :
    InfiniteScroll.handleInfiniteScroll true ⟨sw, g, o, c⟩ q =
      (if q < (c : ℚ) * (sw + g) - (sw + g) then q + (o : ℚ) * (sw + g)
       else if ((o + c * 2 : ℕ) : ℚ) * (sw + g) - (c : ℚ) * (sw + g) + (sw + g) < q then
         q - (o : ℚ) * (sw + g)
       else q) := by
  unfold InfiniteScroll.handleInfiniteScroll
  rw [if_neg (by simp [ho])]

/-! ### Claim C1 -/

/-- Claim C1: round-trip of index and position.  For every pitch greater
than zero and every in-range index, `calculateTargetScroll` followed by
`getSelectedIndex` returns the same index, in the looping mode (index in
`[0, originalCount)`) and in the non-looping mode (index in
`[0, slidesLength)`). -/
theorem roundTrip_index_position (pitch : ℚ) (c o len : ℕ) (hp : 0 < pitch) :
    (∀ i : ℤ, 0 ≤ i → i < (o : ℤ) →
      getSelectedIndex (calculateTargetScroll i pitch c true) pitch c o true len
        = some i)
    ∧ (∀ i : ℤ, 0 ≤ i → i < (len : ℤ) →
      getSelectedIndex (calculateTargetScroll i pitch c false) pitch c o false len
        = some i) := by
  have hne : pitch ≠ 0 := ne_of_gt hp
  constructor
  · intro i h0 hlt
    have ho : o ≠ 0 := by omega
    rw [getSelectedIndex_loop c len hne ho]
    have harg : calculateTargetScroll i pitch c true / pitch = ((c : ℚ) + (i : ℚ)) := by
      unfold calculateTargetScroll
      rw [if_pos rfl]
      exact mul_div_cancel_right₀ _ hne
    have hcast : ((c : ℚ) + (i : ℚ)) = (((c : ℤ) + i : ℤ) : ℚ) := by push_cast; ring
    rw [harg, hcast, jsRound_intCast]
    have harith : (c : ℤ) + i - (c : ℤ) + (o : ℤ) = i + (o : ℤ) := by ring
    rw [harith, tmod_shift h0, Int.tmod_eq_emod h0 (by omega)]
    congr 1
    exact Int.emod_eq_of_lt h0 hlt
  · intro i h0 hlt
    rw [getSelectedIndex_noloop c o hne]
    have harg : calculateTargetScroll i pitch c false / pitch = (i : ℚ) := by
      unfold calculateTargetScroll
      rw [if_neg (by simp)]
      exact mul_div_cancel_right₀ _ hne
    rw [harg, jsRound_intCast]
    congr 1
    exact min_eq_left (by omega)

/-- Witness for C1: with pitch 120 (slide width 100, gap 20),
`cloneCount = originalCount = 5` and loop enabled, the target scroll of
index 0 is 600 and the index resolved from position 600 is 0. -/
theorem roundTrip_index_position_witness :
    (0 : ℚ) < 120
    ∧ calculateTargetScroll 0 120 5 true = 600
    ∧ getSelectedIndex 600 120 5 5 true 15 = some 0 := by
  have h := (roundTrip_index_position 120 5 5 15 (by norm_num)).1 0
    (by norm_num) (by norm_num)
  have e : calculateTargetScroll 0 120 5 true = 600 := by
    norm_num [calculateTargetScroll]
  exact ⟨by norm_num, e, by rw [e] at h; exact h⟩

/-! ### Claim C2 -/

/-- Claim C2 (amended): the remap lands outside its trigger bands and is
idempotent for every position at most one real-window width away from the
safe zone — that is, for `-step ≤ position ≤ totalWidth + step` (with
`cloneCount = originalCount` the low band minus one window is `-step` and
the high band plus one window is `totalWidth + step`).  For positions
further out a single remap is not enough, so the universal form of the
claim fails (see the counterexample). -/
theorem remap_lands_outside_bands (sw g pos : ℚ) (o : ℕ) (ho : o ≠ 0)
    (hs : 0 < sw + g) (hlow : -(sw + g) ≤ pos)
    (hhigh : pos ≤ 3 * (o : ℚ) * (sw + g) + (sw + g)) :
    (o : ℚ) * (sw + g) - (sw + g)
        ≤ InfiniteScroll.handleInfiniteScroll true ⟨sw, g, o, o⟩ pos
    ∧ InfiniteScroll.handleInfiniteScroll true ⟨sw, g, o, o⟩ pos
        ≤ 2 * (o : ℚ) * (sw + g) + (sw + g)
    ∧ InfiniteScroll.handleInfiniteScroll true ⟨sw, g, o, o⟩
          (InfiniteScroll.handleInfiniteScroll true ⟨sw, g, o, o⟩ pos)
        = InfiniteScroll.handleInfiniteScroll true ⟨sw, g, o, o⟩ pos := by
  have key : ∀ q : ℚ, (o : ℚ) * (sw + g) - (sw + g) ≤ q →
      q ≤ 2 * (o : ℚ) * (sw + g) + (sw + g) →
      InfiniteScroll.handleInfiniteScroll true ⟨sw, g, o, o⟩ q = q := by
    intro q h1 h2
    rw [handleInfiniteScroll_mk sw g o o ho]
    rw [if_neg (by linarith), if_neg (by push_cast; linarith)]
  have hB : (o : ℚ) * (sw + g) - (sw + g)
        ≤ InfiniteScroll.handleInfiniteScroll true ⟨sw, g, o, o⟩ pos
      ∧ InfiniteScroll.handleInfiniteScroll true ⟨sw, g, o, o⟩ pos
        ≤ 2 * (o : ℚ) * (sw + g) + (sw + g) := by
    rw [handleInfiniteScroll_mk sw g o o ho]
    split_ifs with h1 h2
    · constructor <;> linarith
    · push_cast at h2
      constructor <;> linarith
    · push_cast at h2
      constructor <;> linarith
  exact ⟨hB.1, hB.2, key _ hB.1 hB.2⟩

/-- Counterexample to C2 as stated: with
`originalCount = cloneCount = 5`, `slideWidth = 100`, `gap = 20`
(step 120, leading band below 480), the position `-200` is remapped to
`400`, which is still strictly inside the leading trigger band
(`400 < 480`), and a second remap moves it again, to `1000`: the remap is
neither band-escaping nor idempotent for every position. -/
theorem remap_not_idempotent_counterexample :
    InfiniteScroll.handleInfiniteScroll true ⟨100, 20, 5, 5⟩ (-200) = 400
    ∧ InfiniteScroll.handleInfiniteScroll true ⟨100, 20, 5, 5⟩ 400 = 1000 := by
  constructor <;>
    · rw [handleInfiniteScroll_mk 100 20 5 5 (by norm_num)]
      norm_num

/-- Witness for the amended C2: with `originalCount = cloneCount = 5`,
`slideWidth = 100`, `gap = 20`, position 50 (inside the leading band) is
remapped to `50 + 5 * 120 = 650`, the result lies outside both bands, and
remapping it again is a no-op. -/
theorem remap_lands_outside_bands_witness :
    (0 : ℚ) < 100 + 20
    ∧ InfiniteScroll.handleInfiniteScroll true ⟨100, 20, 5, 5⟩ 50 = 650
    ∧ ((5 : ℕ) : ℚ) * (100 + 20) - (100 + 20)
        ≤ InfiniteScroll.handleInfiniteScroll true ⟨100, 20, 5, 5⟩ 50
    ∧ InfiniteScroll.handleInfiniteScroll true ⟨100, 20, 5, 5⟩
          (InfiniteScroll.handleInfiniteScroll true ⟨100, 20, 5, 5⟩ 50)
        = InfiniteScroll.handleInfiniteScroll true ⟨100, 20, 5, 5⟩ 50 := by
  have h := remap_lands_outside_bands 100 20 50 5 (by norm_num) (by norm_num)
    (by norm_num) (by norm_num)
  refine ⟨by norm_num, ?_, h.1, h.2.2⟩
  rw [handleInfiniteScroll_mk 100 20 5 5 (by norm_num)]
  norm_num

/-! ### Claim C3 -/

/-- Claim C3 (amended): with a positive pitch, in the looping branch
`getSelectedIndex` returns a value in `[0, originalCount)` provided the
shifted rounded index `round(position/pitch) - cloneCount + originalCount`
is non-negative (the source uses a single JavaScript remainder, which
keeps the sign of its dividend, not the always-non-negative double-modulo
of the spec); in the non-looping branch it returns
`min(round(position/pitch), slidesLength - 1)`, which is clamped only
from above — it lies in `[0, slidesLength - 1]` for non-negative
positions and a non-empty slide list, but is not clamped at zero. -/
theorem selectedIndex_range (pos pitch : ℚ) (c o len : ℕ) (hp : 0 < pitch) :
    (o ≠ 0 → 0 ≤ jsRound (pos / pitch) - (c : ℤ) + (o : ℤ) →
      ∃ r : ℤ, getSelectedIndex pos pitch c o true len = some r
        ∧ 0 ≤ r ∧ r < (o : ℤ))
    ∧ (len ≠ 0 → 0 ≤ pos →
      ∃ r : ℤ, getSelectedIndex pos pitch c o false len = some r
        ∧ 0 ≤ r ∧ r ≤ (len : ℤ) - 1) := by
  have hne : pitch ≠ 0 := ne_of_gt hp
  constructor
  · intro ho hsh
    refine ⟨_, getSelectedIndex_loop c len hne ho, ?_, ?_⟩
    · rw [Int.tmod_eq_emod hsh (by omega)]
      exact Int.emod_nonneg _ (by omega)
    · rw [Int.tmod_eq_emod hsh (by omega)]
      exact Int.emod_lt_of_pos _ (by omega)
  · intro hlen hpos
    refine ⟨_, getSelectedIndex_noloop c o hne, ?_, ?_⟩
    · have hq : (0 : ℚ) ≤ pos / pitch := div_nonneg hpos (le_of_lt hp)
      have h0 : 0 ≤ jsRound (pos / pitch) := jsRound_nonneg (by linarith)
      exact le_min h0 (by omega)
    · exact min_le_right _ _

/-- Counterexample to C3 as stated: at position `-120` with pitch 120,
`cloneCount = originalCount = 5`, the looping branch returns `-1` (the
JavaScript remainder of the dividend `-1` is `-1`), and with
`slidesLength = 3` the non-looping branch also returns `-1` (`Math.min`
clamps only from above), so the result is neither in `[0, originalCount)`
nor clamped into `[0, slidesLength - 1]`. -/
theorem selectedIndex_negative_counterexample :
    getSelectedIndex (-120) 120 5 5 true 15 = some (-1)
    ∧ getSelectedIndex (-120) 120 5 5 false 3 = some (-1) := by
  constructor
  · rw [getSelectedIndex_loop 5 15 (by norm_num) (by norm_num)]
    rw [show jsRound ((-120 : ℚ) / 120) = -1 from
      jsRound_eq (by norm_num) (by norm_num)]
    decide
  · rw [getSelectedIndex_noloop 5 5 (by norm_num)]
    rw [show jsRound ((-120 : ℚ) / 120) = -1 from
      jsRound_eq (by norm_num) (by norm_num)]
    decide

/-- Witness for the amended C3: position 600 in the looping branch gives
an index in `[0, 5)`, and position 240 in the non-looping branch with 3
slides gives an index in `[0, 2]`. -/
theorem selectedIndex_range_witness :
    ((5 : ℕ) ≠ 0
      ∧ 0 ≤ jsRound ((600 : ℚ) / 120) - ((5 : ℕ) : ℤ) + ((5 : ℕ) : ℤ)
      ∧ ∃ r : ℤ, getSelectedIndex 600 120 5 5 true 15 = some r
          ∧ 0 ≤ r ∧ r < ((5 : ℕ) : ℤ))
    ∧ ((3 : ℕ) ≠ 0 ∧ (0 : ℚ) ≤ 240
      ∧ ∃ r : ℤ, getSelectedIndex 240 120 5 5 false 3 = some r
          ∧ 0 ≤ r ∧ r ≤ ((3 : ℕ) : ℤ) - 1) := by
  have hr : jsRound ((600 : ℚ) / 120) = 5 :=
    jsRound_eq (by norm_num) (by norm_num)
  have h1 := (selectedIndex_range 600 120 5 5 15 (by norm_num)).1 (by norm_num)
    (by rw [hr]; decide)
  have h2 := (selectedIndex_range 240 120 5 5 3 (by norm_num)).2 (by norm_num)
    (by norm_num)
  exact ⟨⟨by norm_num, by rw [hr]; decide, h1⟩, ⟨by norm_num, by norm_num, h2⟩⟩

/-! ### Claim C4 -/

/-- Claim C4 (amended): with loop enabled, `originalCount ≠ 0`,
`cloneCount = originalCount` and a positive pitch, the remap never changes
the selected index for every position whose rounded raw index is
non-negative (every position at least `-pitch/2`).  For positions further
to the left the equality can fail (see the counterexample at `-400`). -/
theorem remap_preserves_selectedIndex (sw g pos : ℚ) (o len : ℕ)
    (ho : o ≠ 0) (hs : 0 < sw + g) (hpos : -((sw + g) / 2) ≤ pos) :
    getSelectedIndex (InfiniteScroll.handleInfiniteScroll true ⟨sw, g, o, o⟩ pos)
        (sw + g) o o true len
      = getSelectedIndex pos (sw + g) o o true len := by
  have hne : (sw + g) ≠ 0 := ne_of_gt hs
  have hhalf : -(1 / 2 : ℚ) ≤ pos / (sw + g) := by
    rw [le_div_iff₀ hs]
    linarith
  have hraw : 0 ≤ jsRound (pos / (sw + g)) := jsRound_nonneg hhalf
  have hshift : ∀ k : ℤ, jsRound ((pos + (k : ℚ) * (sw + g)) / (sw + g))
      = jsRound (pos / (sw + g)) + k := by
    intro k
    have e : (pos + (k : ℚ) * (sw + g)) / (sw + g) = pos / (sw + g) + (k : ℚ) := by
      field_simp
    rw [e, jsRound_add_intCast]
  rw [handleInfiniteScroll_mk sw g o o ho]
  split_ifs with h1 h2
  · rw [getSelectedIndex_loop o len hne ho, getSelectedIndex_loop o len hne ho]
    have e1 : pos + ((o : ℕ) : ℚ) * (sw + g)
        = pos + (((o : ℤ)) : ℚ) * (sw + g) := by
      push_cast
      ring
    rw [e1, hshift (o : ℤ)]
    congr 1
    have e2 : jsRound (pos / (sw + g)) + (o : ℤ) - (o : ℤ) + (o : ℤ)
        = jsRound (pos / (sw + g)) + (o : ℤ) := by ring
    have e3 : jsRound (pos / (sw + g)) - (o : ℤ) + (o : ℤ)
        = jsRound (pos / (sw + g)) := by ring
    rw [e2, e3]
    exact tmod_shift hraw
  · have hraw2 : 2 * (o : ℤ) + 1 ≤ jsRound (pos / (sw + g)) := by
      apply le_jsRound
      rw [le_div_iff₀ hs]
      push_cast at h2 ⊢
      nlinarith [hs]
    rw [getSelectedIndex_loop o len hne ho, getSelectedIndex_loop o len hne ho]
    have e1 : pos - ((o : ℕ) : ℚ) * (sw + g)
        = pos + ((-(o : ℤ) : ℤ) : ℚ) * (sw + g) := by
      push_cast
      ring
    rw [e1, hshift (-(o : ℤ))]
    congr 1
    have e2 : jsRound (pos / (sw + g)) + -(o : ℤ) - (o : ℤ) + (o : ℤ)
        = jsRound (pos / (sw + g)) - (o : ℤ) := by ring
    have e3 : jsRound (pos / (sw + g)) - (o : ℤ) + (o : ℤ)
        = jsRound (pos / (sw + g)) := by ring
    rw [e2, e3]
    exact tmod_sub_shift (by omega)
  · rfl

/-- Counterexample to C4 as stated: with `originalCount = cloneCount = 5`,
`slideWidth = 100`, `gap = 20`, the remap moves position `-400` to `200`,
and the selected index changes from `-3` to `2`: the jump is visible at
the index level for positions left of the track. -/
theorem remap_changes_selectedIndex_counterexample :
    InfiniteScroll.handleInfiniteScroll true ⟨100, 20, 5, 5⟩ (-400) = 200
    ∧ getSelectedIndex 200 120 5 5 true 15 = some 2
    ∧ getSelectedIndex (-400) 120 5 5 true 15 = some (-3)
    ∧ getSelectedIndex
        (InfiniteScroll.handleInfiniteScroll true ⟨100, 20, 5, 5⟩ (-400))
        120 5 5 true 15
      ≠ getSelectedIndex (-400) 120 5 5 true 15 := by
  have hremap : InfiniteScroll.handleInfiniteScroll true ⟨100, 20, 5, 5⟩ (-400)
      = 200 := by
    rw [handleInfiniteScroll_mk 100 20 5 5 (by norm_num)]
    norm_num
  have h200 : getSelectedIndex 200 120 5 5 true 15 = some 2 := by
    rw [getSelectedIndex_loop 5 15 (by norm_num) (by norm_num)]
    rw [show jsRound ((200 : ℚ) / 120) = 2 from
      jsRound_eq (by norm_num) (by norm_num)]
    decide
  have hneg : getSelectedIndex (-400) 120 5 5 true 15 = some (-3) := by
    rw [getSelectedIndex_loop 5 15 (by norm_num) (by norm_num)]
    rw [show jsRound ((-400 : ℚ) / 120) = -3 from
      jsRound_eq (by norm_num) (by norm_num)]
    decide
  refine ⟨hremap, h200, hneg, ?_⟩
  rw [hremap, h200, hneg]
  decide

/-- Witness for the amended C4: with slide width 100, gap 20,
`originalCount = cloneCount = 5`, position 50 is remapped (to 650) and
the selected index is unchanged. -/
theorem remap_preserves_selectedIndex_witness :
    (5 : ℕ) ≠ 0 ∧ (0 : ℚ) < 100 + 20 ∧ -((100 + 20 : ℚ) / 2) ≤ 50
    ∧ getSelectedIndex
        (InfiniteScroll.handleInfiniteScroll true ⟨100, 20, 5, 5⟩ 50)
        (100 + 20) 5 5 true 15
      = getSelectedIndex 50 (100 + 20) 5 5 true 15 :=
  ⟨by norm_num, by norm_num, by norm_num,
    remap_preserves_selectedIndex 100 20 50 5 15 (by norm_num) (by norm_num)
      (by norm_num)⟩

/-! ### Claim C5 -/

theorem momentumVelocity_eq (v0 d : ℚ) (n : ℕ) :
    DragHandler.momentumVelocity v0 d n = v0 * d ^ n := by
  induction n with
  | zero => simp [DragHandler.momentumVelocity]
  | succ n ih =>
    rw [DragHandler.momentumVelocity, ih, pow_succ]
    ring

/-- Claim C5: momentum decay terminates.  For every initial velocity with
`|v0| > minVelocity`, every deceleration factor in `(0, 1)` and every
positive `minVelocity`, iterating `velocity := velocity * deceleration`
(the step of `DragHandler.startMomentum`) reaches
`|velocity| < minVelocity` after finitely many ticks, so the momentum
animation always stops. -/
theorem momentum_decay_terminates (v0 d minV : ℚ) (hd0 : 0 < d) (hd1 : d < 1)
    (hm : 0 < minV) (hv : minV < |v0|) :
    ∃ n : ℕ, |DragHandler.momentumVelocity v0 d n| < minV := by
  have hv0 : 0 < |v0| := lt_trans hm hv
  obtain ⟨n, hn⟩ := exists_pow_lt_of_lt_one (div_pos hm hv0) hd1
  refine ⟨n, ?_⟩
  rw [momentumVelocity_eq, abs_mul, abs_pow, abs_of_pos hd0]
  calc |v0| * d ^ n < |v0| * (minV / |v0|) := by
        exact mul_lt_mul_of_pos_left hn hv0
    _ = minV := by field_simp

/-- Witness for C5: with the source's default deceleration `0.92` and
threshold `0.5`, a momentum started at velocity 10 decays below the
threshold after finitely many ticks. -/
theorem momentum_decay_terminates_witness :
    (0 : ℚ) < 92 / 100 ∧ (92 / 100 : ℚ) < 1 ∧ (0 : ℚ) < 1 / 2
    ∧ (1 / 2 : ℚ) < |(10 : ℚ)|
    ∧ ∃ n : ℕ, |DragHandler.momentumVelocity 10 (92 / 100) n| < 1 / 2 :=
  ⟨by norm_num, by norm_num, by norm_num, by norm_num,
    momentum_decay_terminates 10 (92 / 100) (1 / 2) (by norm_num) (by norm_num)
      (by norm_num) (by norm_num)⟩

/-! ### Claim C6 -/

/-- Claim C6: an out-of-range `scrollTo` is a silent no-op.  For every
index with `index < 0` or `index ≥ slides.length`, `Carousel.scrollTo`
returns without touching the track state (neither the scroll position nor
the scroll-behavior flag changes), and no error is raised (the function
is total). -/
theorem scrollTo_out_of_range_noop (slidesLength : ℕ) (sw gap : ℚ)
    (cloneCount : ℕ) (loop : Bool) (index : ℤ) (smooth : Bool)
    (track : TrackState) (h : index < 0 ∨ (slidesLength : ℤ) ≤ index) :
    Carousel.scrollTo slidesLength sw gap cloneCount loop index smooth track
      = track := by
  rw [Carousel.scrollTo, if_pos h]

/-- Witness for C6: `scrollTo(5)` on a 3-slide carousel leaves the track
state unchanged. -/
theorem scrollTo_out_of_range_noop_witness :
    ((5 : ℤ) < 0 ∨ ((3 : ℕ) : ℤ) ≤ 5)
    ∧ Carousel.scrollTo 3 100 20 3 true 5 true ⟨360, false⟩ = ⟨360, false⟩ :=
  ⟨Or.inr (by norm_num),
    scrollTo_out_of_range_noop 3 100 20 3 true 5 true ⟨360, false⟩
      (Or.inr (by norm_num))⟩

/-! ### Claim C7 -/

/-- Counterexample to C7 as stated: a drag that ends with velocity 0
(below the default threshold 0.5) settles immediately, but the
notification goes through the drag handler's scroll callback, which the
carousel wires to a `'scroll'` event — the events actually emitted are
`[{scroll, 2}]` and `'scroll' ≠ 'select'`, so no select notification is
fired on drag settle. -/
theorem dragEnd_emits_scroll_not_select :
    (DragHandler.handleDragEnd DragHandler.defaultConfig 2
        ⟨true, 0, 0, 0, 0, 0⟩).2
      = [DragHandler.Effect.emitScrollCallback 2, DragHandler.Effect.loopRemap]
    ∧ Carousel.dragEffectsEvents
        (DragHandler.handleDragEnd DragHandler.defaultConfig 2
          ⟨true, 0, 0, 0, 0, 0⟩).2
      = [{ type := CarouselEventType.scroll, index := 2 }]
    ∧ CarouselEventType.scroll ≠ CarouselEventType.select := by
  have h : (DragHandler.handleDragEnd DragHandler.defaultConfig 2
      ⟨true, 0, 0, 0, 0, 0⟩).2
      = [DragHandler.Effect.emitScrollCallback 2,
          DragHandler.Effect.loopRemap] := by
    norm_num [DragHandler.handleDragEnd, DragHandler.defaultConfig]
  refine ⟨h, ?_, by decide⟩
  rw [h]
  rfl

/-- Claim C7 (amended): when a drag ends while dragging, the session
leaves the dragging state; if `|velocity| > minVelocity` the recorded
velocity is handed to the momentum animation, otherwise the handler
immediately notifies with the current resolved index through its scroll
callback — which the carousel wires to a `'scroll'` event, not a
`'select'` event. -/
theorem dragEnd_settles_or_hands_off (cfg : DragHandler.Config) (i : ℤ)
    (st : DragHandler.DragState) (h : st.isDragging = true) :
    ((DragHandler.handleDragEnd cfg i st).1).isDragging = false
    ∧ (cfg.minVelocity < |st.velocity| →
        (DragHandler.handleDragEnd cfg i st).2
          = [DragHandler.Effect.startMomentum st.velocity,
              DragHandler.Effect.loopRemap])
    ∧ (¬ cfg.minVelocity < |st.velocity| →
        (DragHandler.handleDragEnd cfg i st).2
            = [DragHandler.Effect.emitScrollCallback i,
                DragHandler.Effect.loopRemap]
          ∧ Carousel.dragEffectsEvents (DragHandler.handleDragEnd cfg i st).2
              = [{ type := CarouselEventType.scroll, index := i }]) := by
  by_cases hv : cfg.minVelocity < |st.velocity|
  · simp [DragHandler.handleDragEnd, h, hv]
  · simp [DragHandler.handleDragEnd, h, hv, Carousel.dragEffectsEvents,
      Carousel.effectEvents, Carousel.scrollCallbackEvent]

/-- Witness for the amended C7: ending a drag with velocity 20 hands off
to momentum, and ending one with velocity 0 notifies index 1 through the
scroll callback. -/
theorem dragEnd_settles_or_hands_off_witness :
    (DragHandler.DragState.isDragging ⟨true, 0, 0, 0, 0, 20⟩ = true)
    ∧ ((DragHandler.handleDragEnd DragHandler.defaultConfig 1
        ⟨true, 0, 0, 0, 0, 20⟩).1).isDragging = false
    ∧ (DragHandler.defaultConfig.minVelocity
          < |DragHandler.DragState.velocity ⟨true, 0, 0, 0, 0, 20⟩| →
        (DragHandler.handleDragEnd DragHandler.defaultConfig 1
            ⟨true, 0, 0, 0, 0, 20⟩).2
          = [DragHandler.Effect.startMomentum
              (DragHandler.DragState.velocity ⟨true, 0, 0, 0, 0, 20⟩),
              DragHandler.Effect.loopRemap]) := by
  have h := dragEnd_settles_or_hands_off DragHandler.defaultConfig 1
    ⟨true, 0, 0, 0, 0, 20⟩ rfl
  exact ⟨rfl, h.1, h.2.1⟩

/-! ### Claim C8 -/

/-- Counterexample to C8 as stated: `calculateSlideWidth` does not fail
for non-positive `slidesPerView` other than zero, nor for a non-positive
computed width: with `slidesPerView = -1` it returns the finite value
`-320`, and with `containerWidth = 100`, `gap = 200`, `slidesPerView = 2`
it returns the finite non-positive value `-50`; no `InvalidGeometry`
signal exists in the source and nothing stops callers from using the
value. -/
theorem calculateSlideWidth_no_failure_counterexample :
    calculateSlideWidth 320 0 (-1) = some (-320)
    ∧ calculateSlideWidth 100 200 2 = some (-50) := by
  constructor <;> norm_num [calculateSlideWidth]

/-- Claim C8 (amended): `calculateSlideWidth` always returns the formula
value `(containerWidth - gap * (slidesPerView - 1)) / slidesPerView`
whenever `slidesPerView ≠ 0` — including negative `slidesPerView` and
non-positive results, with no failure signal — and returns a non-finite
value exactly when `slidesPerView = 0`. -/
theorem calculateSlideWidth_formula (containerWidth gap slidesPerView : ℚ) :
    (slidesPerView ≠ 0 →
      calculateSlideWidth containerWidth gap slidesPerView
        = some ((containerWidth - gap * (slidesPerView - 1)) / slidesPerView))
    ∧ (calculateSlideWidth containerWidth gap slidesPerView = none
        ↔ slidesPerView = 0) := by
  constructor
  · intro h
    simp [calculateSlideWidth, h]
  · by_cases h : slidesPerView = 0 <;> simp [calculateSlideWidth, h]

/-- Witness for the amended C8: the spec's Scenario C geometry,
`containerWidth = 320`, `gap = 20`, `slidesPerView = 1`, gives slide
width 320. -/
theorem calculateSlideWidth_formula_witness :
    (1 : ℚ) ≠ 0
    ∧ calculateSlideWidth 320 20 1
        = some ((320 - 20 * ((1 : ℚ) - 1)) / 1)
    ∧ ((320 : ℚ) - 20 * ((1 : ℚ) - 1)) / 1 = 320 :=
  ⟨by norm_num, (calculateSlideWidth_formula 320 20 1).1 (by norm_num),
    by norm_num⟩

/-! ### Claim C9 -/

/-- Claim C9: the drag velocity formula.  On every drag-move sample with
positive elapsed time the recorded velocity is
`(lastX - x) / (now - lastTime) * 16`, and on release a velocity above
the threshold starts the momentum animation with exactly that velocity. -/
theorem drag_velocity_formula :
    (∀ (now x : ℚ) (i : ℤ) (st : DragHandler.DragState),
      st.isDragging = true → 0 < now - st.lastTime →
      ((DragHandler.handleDragMove now x i st).1).velocity
        = (st.lastX - x) / (now - st.lastTime) * 16)
    ∧ ∀ (cfg : DragHandler.Config) (i : ℤ) (st : DragHandler.DragState),
      st.isDragging = true → cfg.minVelocity < |st.velocity| →
      DragHandler.Effect.startMomentum st.velocity
        ∈ (DragHandler.handleDragEnd cfg i st).2 := by
  constructor
  · intro now x i st h hdt
    simp [DragHandler.handleDragMove, h, hdt]
  · intro cfg i st h hv
    simp [DragHandler.handleDragEnd, h, hv]

/-- Witness for C9: the spec's Scenario D.  From the drag-start sample
`(x = 100, t = 0)` a move to `(x = 80, t = 16)` records velocity
`(100 - 80) / 16 * 16 = 20`, and with the default threshold `0.5` the
subsequent release starts momentum with velocity 20. -/
theorem drag_velocity_formula_witness :
    DragHandler.DragState.isDragging ⟨true, 100, 0, 100, 0, 0⟩ = true
    ∧ (0 : ℚ) < 16 - DragHandler.DragState.lastTime ⟨true, 100, 0, 100, 0, 0⟩
    ∧ ((DragHandler.handleDragMove 16 80 0 ⟨true, 100, 0, 100, 0, 0⟩).1).velocity
        = 20
    ∧ DragHandler.Effect.startMomentum 20
        ∈ (DragHandler.handleDragEnd DragHandler.defaultConfig 0
            ((DragHandler.handleDragMove 16 80 0 ⟨true, 100, 0, 100, 0, 0⟩).1)).2 := by
  have h1 := drag_velocity_formula.1 16 80 0 ⟨true, 100, 0, 100, 0, 0⟩ rfl
    (by norm_num)
  have hv : ((DragHandler.handleDragMove 16 80 0
      ⟨true, 100, 0, 100, 0, 0⟩).1).velocity = 20 := by
    rw [h1]
    norm_num
  have hdrag : ((DragHandler.handleDragMove 16 80 0
      ⟨true, 100, 0, 100, 0, 0⟩).1).isDragging = true := by
    simp [DragHandler.handleDragMove]
  have h2 := drag_velocity_formula.2 DragHandler.defaultConfig 0
    ((DragHandler.handleDragMove 16 80 0 ⟨true, 100, 0, 100, 0, 0⟩).1)
    hdrag (by rw [hv]; norm_num [DragHandler.defaultConfig])
  rw [hv] at h2
  exact ⟨rfl, by norm_num, hv, h2⟩

/-! ### Claim C10 -/

/-- Claim C10: with loop enabled and zero slides, `getSelectedIndex`
computes a remainder by zero and returns NaN (modelled as `none`), which
is not an integer in any valid index range — for every position and every
pitch; the corresponding guard for `originalCount = 0` does exist in the
infinite-scroll remap, which leaves every position unchanged. -/
theorem emptyLoop_selectedIndex_nan :
    (∀ (pos pitch : ℚ) (c len : ℕ),
      getSelectedIndex pos pitch c 0 true len = none)
    ∧ ∀ (enabled : Bool) (sw g : ℚ) (c : ℕ) (pos : ℚ),
      InfiniteScroll.handleInfiniteScroll enabled ⟨sw, g, 0, c⟩ pos = pos := by
  constructor
  · intro pos pitch c len
    by_cases hp : pitch = 0
    · simp [getSelectedIndex, hp]
    · simp [getSelectedIndex, hp, jsRem]
  · intro e sw g c pos
    simp [InfiniteScroll.handleInfiniteScroll]
